import Mathlib

/-!
Verification of the powerbot core: the retry/backoff executor
(`src/utils/retry.ts`), the session state model
(`src/database/models/Session.ts` and `src/database/schema.ts`), the
browser resource manager (`src/automation/BrowserManager.ts`), and the
extraction-to-storage pipeline (`src/scrapers/BaseScraper.ts` with
`src/database/models/ScrapedData.ts` and `src/database/connection.ts`),
as a shallow embedding in Lean.
-/

namespace PowerBot

/-- A JavaScript `Error` value as observed by the retry executor.  The
`retryExhausted` constructor models the *specification's* `RetryExhausted`
wrapper type (wrapping a cause); the source code itself never constructs
such a value, which is exactly what the refinement theorems establish. -/
inductive JsError where
  | error (msg : String)
  | retryExhausted (cause : JsError)
deriving DecidableEq, Repr

/-- Tests whether an error is the specification's `RetryExhausted` wrapper. -/
def isRetryExhausted : JsError → Bool
  | .retryExhausted _ => true
  | _ => false

/-- The `RetryConfig` interface of `src/types/index.ts` (fields `enabled`,
`maxRetries`, `delayMs`, `backoffMultiplier`). -/
structure RetryConfig where
  enabled : Bool
  maxRetries : Nat
  delayMs : Nat
  backoffMultiplier : Nat
deriving DecidableEq, Repr

/-- Observable outcome of one `retry` run: the final result (the value
returned, or the error thrown), the number of times the wrapped operation
was invoked, and the sequence of back-off delays slept between
consecutive invocations. -/
structure RetryOutcome (α : Type) where
  result : Except JsError α
  invocations : Nat
  delays : List Nat

/-- `const maxRetries = config.maxRetries || 3` — JavaScript falsy-or
defaulting: `0` is replaced by the default `3`. -/
def effMaxRetries (c : RetryConfig) : Nat :=
  if c.maxRetries = 0 then 3 else c.maxRetries

/-- `const delayMs = config.delayMs || 1000` — falsy-or defaulting. -/
def effDelayMs (c : RetryConfig) : Nat :=
  if c.delayMs = 0 then 1000 else c.delayMs

/-- `const backoffMultiplier = config.backoffMultiplier || 2` — falsy-or
defaulting. -/
def effBackoffMultiplier (c : RetryConfig) : Nat :=
  if c.backoffMultiplier = 0 then 2 else c.backoffMultiplier

/-- The `for (let attempt = 0; attempt <= maxRetries; attempt++)` loop of
`retry` in `src/utils/retry.ts`.  `op i` is the outcome of the `i`-th
invocation of `fn` (zero-based).  The second `Nat` argument is the number
of attempts still allowed after the current one (`maxRetries - attempt`);
on a failure with attempts remaining, the loop sleeps
`delayMs * backoffMultiplier ^ attempt` and retries; on a failure on the
last attempt it breaks and the raw last error is thrown. -/
def retryLoop {α : Type} (op : Nat → Except JsError α) (d m : Nat) :
    Nat → Nat → RetryOutcome α
  | attempt, 0 =>
    match op attempt with
    | .ok a => ⟨.ok a, 1, []⟩
    | .error e => ⟨.error e, 1, []⟩
  | attempt, r + 1 =>
    match op attempt with
    | .ok a => ⟨.ok a, 1, []⟩
    | .error _ =>
      let rest := retryLoop op d m (attempt + 1) r
      ⟨rest.result, rest.invocations + 1, d * m ^ attempt :: rest.delays⟩

/-- The `retry` function of `src/utils/retry.ts`: if the policy is
disabled, a single invocation with the raw result; otherwise the bounded
exponential-backoff loop over the falsy-defaulted policy fields. -/
def retry {α : Type} (op : Nat → Except JsError α) (config : RetryConfig) :
    RetryOutcome α :=
  if config.enabled then
    retryLoop op (effDelayMs config) (effBackoffMultiplier config) 0
      (effMaxRetries config)
  else
    ⟨op 0, 1, []⟩

/-- An operation that fails on every attempt, attempt `i` raising an
ordinary `Error` carrying the attempt index. -/
def alwaysFail : Nat → Except JsError Unit :=
  fun i => .error (.error (toString i))

/- ### Session model -/

/-- The `SessionStatus` union type of `src/types/index.ts`: only
`active`, `completed`, `failed` — no `paused`. -/
inductive SessionStatus where
  | active
  | completed
  | failed
deriving DecidableEq, Repr

/-- The TEXT value stored in the `sessions.status` column for each typed
status. -/
def SessionStatus.toDb : SessionStatus → String
  | .active => "active"
  | .completed => "completed"
  | .failed => "failed"

/-- One row of the `sessions` table, with the columns the model
operations touch (`status` is the stored TEXT value). -/
structure SessionRow where
  sessionId : String
  gameUrl : String
  status : String
  endedAt : Option String
  metadata : Option String
deriving DecidableEq, Repr

/-- The status values admitted by the CHECK constraint of the `sessions`
table in `src/database/schema.ts`:
`CHECK(status IN ('active', 'completed', 'failed', 'paused'))`. -/
def sessionsStatusCheck : List String :=
  ["active", "completed", "failed", "paused"]

/-- The mutating operations of `SessionModel`
(`src/database/models/Session.ts`).  The generated session id and the
`new Date().toISOString()` timestamp are inputs of the model. -/
inductive SessionOp where
  | create (sessionId gameUrl : String) (metadata : Option String)
  | updateStatus (sessionId : String) (status : SessionStatus) (now : String)
  | updateMetadata (sessionId : String) (metadata : String)
  | deleteSession (sessionId : String)
deriving DecidableEq, Repr

/-- `const endedAt = (status === 'completed' || status === 'failed') ?
new Date().toISOString() : null` in `SessionModel.updateStatus`. -/
def terminalEndedAt (status : SessionStatus) (now : String) : Option String :=
  if status = .completed ∨ status = .failed then some now else none

/-- Effect of one `SessionModel` operation on the `sessions` table.
`create` inserts a row with the literal status `'active'` and no
`ended_at`; `updateStatus` overwrites `status` and `ended_at` on every
row matching the session id, with no guard on the previous status;
`updateMetadata` overwrites `metadata`; `delete` removes the row. -/
def applySessionOp (db : List SessionRow) : SessionOp → List SessionRow
  | .create sid url md => db ++ [⟨sid, url, "active", none, md⟩]
  | .updateStatus sid st now =>
    db.map fun r =>
      if r.sessionId = sid then
        { r with status := st.toDb, endedAt := terminalEndedAt st now }
      else r
  | .updateMetadata sid md =>
    db.map fun r =>
      if r.sessionId = sid then { r with metadata := some md } else r
  | .deleteSession sid => db.filter fun r => r.sessionId ≠ sid

/-- The `sessions` table reached by running a sequence of `SessionModel`
operations from the empty table. -/
def runSessionOps (ops : List SessionOp) : List SessionRow :=
  ops.foldl applySessionOp []

/-- The Session invariant of the specification: `endedAt` is set if and
only if the stored status is `completed` or `failed`. -/
def endedAtIffTerminal (r : SessionRow) : Prop :=
  r.endedAt.isSome = true ↔ (r.status = "completed" ∨ r.status = "failed")

instance (r : SessionRow) : Decidable (endedAtIffTerminal r) := by
  unfold endedAtIffTerminal
  infer_instance

/- ### Browser manager model -/

/-- A page handle as configured by `BrowserManager.getPage`: the identity
of the underlying Playwright page and the two timeouts applied on
creation (`setDefaultNavigationTimeout` and `setDefaultTimeout`). -/
structure PageHandle where
  id : Nat
  navTimeout : Nat
  defTimeout : Nat
deriving DecidableEq, Repr

/-- The mutable fields of a `BrowserManager` instance
(`src/automation/BrowserManager.ts`): whether `this.browser` is non-null,
the keys of the `contexts` map, the `pages` map (keyed by the string
`contextId + ":" + pageId`), and a counter supplying fresh page
identities.  Map iteration order is insertion order, as for a JS `Map`. -/
structure BMState where
  browser : Bool
  contexts : List String
  pages : List (String × PageHandle)
  nextPageId : Nat
deriving DecidableEq, Repr

/-- A freshly constructed manager: no browser, no contexts, no pages. -/
def BMState.initial : BMState := ⟨false, [], [], 0⟩

/-- `this.pages.get(key)` on the association-list model of the map. -/
def lookupPage (ps : List (String × PageHandle)) (k : String) :
    Option PageHandle :=
  (ps.find? (fun q => q.1 == k)).map (fun q => q.2)

/-- The composite key `` `${contextId}:${pageId}` `` used by `getPage`,
`closePage` and `closeContext`. -/
def fullPageId (cid pid : String) : String := cid ++ ":" ++ pid

/-- Character-level prefix test (the `id.startsWith(prefixString)` check
of `closeContext`, written out so that it evaluates by kernel
reduction). -/
def isKeyPrefix : List Char → List Char → Bool
  | [], _ => true
  | _ :: _, [] => false
  | c :: cs, d :: ds => c == d && isKeyPrefix cs ds

/-- `s.startsWith(p)` on the two strings' character lists. -/
def strStartsWith (s p : String) : Bool := isKeyPrefix p.data s.data

/-- `BrowserManager.launch`: throws `'Browser already launched'` if a
browser handle exists, otherwise starts the process and stores the
handle. -/
def launch (st : BMState) : Except String Unit × BMState :=
  if st.browser then (.error "Browser already launched", st)
  else (.ok (), { st with browser := true })

/-- `BrowserManager.createContext`: throws if the browser is not launched
or the id is already registered; otherwise registers the new context. -/
def createContext (st : BMState) (cid : String) :
    Except String Unit × BMState :=
  if !st.browser then (.error "Browser not launched", st)
  else if st.contexts.contains cid then
    (.error ("Context " ++ cid ++ " already exists"), st)
  else (.ok (), { st with contexts := st.contexts ++ [cid] })

/-- `BrowserManager.getPage`: the `pages` map is consulted first under
the joined key; on a miss, the context is looked up (throwing
`'Context ... not found'` if absent) and a fresh page is created with the
configured default navigation and action timeouts `t`. -/
def getPage (t : Nat) (st : BMState) (cid : String) (pid : String) :
    Except String PageHandle × BMState :=
  let full := fullPageId cid pid
  match lookupPage st.pages full with
  | some p => (.ok p, st)
  | none =>
    if st.contexts.contains cid then
      let p : PageHandle := ⟨st.nextPageId, t, t⟩
      (.ok p, { st with pages := st.pages ++ [(full, p)],
                        nextPageId := st.nextPageId + 1 })
    else (.error ("Context " ++ cid ++ " not found"), st)

/-- `BrowserManager.closePage`: `page.close()` is not wrapped in
try/catch, so a failing close (modelled by `pf` on the page identity)
propagates before the map entry is deleted. -/
def closePage (pf : Nat → Bool) (st : BMState) (cid pid : String) :
    Except String Unit × BMState :=
  let full := fullPageId cid pid
  match lookupPage st.pages full with
  | none => (.ok (), st)
  | some p =>
    if pf p.id then (.error "page close failed", st)
    else (.ok (), { st with pages := st.pages.filter (fun q => !(q.1 == full)) })

/-- The `for (const pageId of pagesForContext)` loop of `closeContext`:
pages are closed and removed one by one; an individual `page.close()`
failure propagates, leaving the remaining entries in the map. -/
def closePagesLoop (pf : Nat → Bool) :
    List String → List (String × PageHandle) →
      Except String Unit × List (String × PageHandle)
  | [], pages => (.ok (), pages)
  | k :: rest, pages =>
    match lookupPage pages k with
    | none => closePagesLoop pf rest pages
    | some p =>
      if pf p.id then (.error "page close failed", pages)
      else closePagesLoop pf rest (pages.filter (fun q => !(q.1 == k)))

/-- `BrowserManager.closeContext`: if the context is registered, its page
keys (those starting with `contextId + ":"`) are closed in iteration
order, then `context.close()` runs and the context entry is removed; none
of these steps is wrapped in try/catch, so any failure aborts the rest. -/
def closeContext (pf : Nat → Bool) (cf : String → Bool)
    (st : BMState) (cid : String) : Except String Unit × BMState :=
  if st.contexts.contains cid then
    match closePagesLoop pf
      ((st.pages.filter (fun q => strStartsWith q.1 (cid ++ ":"))).map
        (fun q => q.1)) st.pages with
    | (.error e, ps) => (.error e, { st with pages := ps })
    | (.ok _, ps) =>
      if cf cid then (.error "context close failed", { st with pages := ps })
      else (.ok (), { st with pages := ps,
                              contexts := st.contexts.filter (fun c => !(c == cid)) })
  else (.ok (), st)

/-- `BrowserManager.close`: every `page.close()` and `context.close()` is
individually wrapped in try/catch (failures only logged) and both maps
are cleared unconditionally; `browser.close()` is not wrapped, so when it
fails the handle stays set and the error propagates. -/
def close (pf : Nat → Bool) (cf : String → Bool) (bf : Bool)
    (st : BMState) : Except String Unit × BMState :=
  let cleared : BMState := { st with pages := [], contexts := [] }
  if st.browser then
    if bf then (.error "browser close failed", cleared)
    else (.ok (), { cleared with browser := false })
  else (.ok (), cleared)

/- ### Extraction pipeline model -/

/-- One row of the `scraped_data` table, with the columns written by
`ScrapedDataModel.createMany`.  A document is a key–value list
(`Object.keys(data).length > 0` is non-emptiness of this list). -/
structure ScrapedRow where
  sessionId : String
  dataType : String
  content : List (String × String)
  url : String
deriving DecidableEq, Repr

instance {ε α : Type} [DecidableEq ε] [DecidableEq α] :
    DecidableEq (Except ε α)
  | .ok x, .ok y =>
    if h : x = y then .isTrue (by rw [h]) else .isFalse (by simp [h])
  | .error x, .error y =>
    if h : x = y then .isTrue (by rw [h]) else .isFalse (by simp [h])
  | .ok _, .error _ => .isFalse (by simp)
  | .error _, .ok _ => .isFalse (by simp)

/-- Input to `scrapeMultiple` for one page: the outcome of
`this.extractData(page)` (a thrown error or an extracted document), and
`page.url()`. -/
structure PageInput where
  extracted : Except String (List (String × String))
  url : String
deriving DecidableEq, Repr

/-- The body of `insertMany` inside `ScrapedDataModel.createMany`: rows
are inserted one by one; `runIns` models whether an individual
`db.run(INSERT ...)` throws (e.g. a constraint violation), in which case
the loop aborts with that error. -/
def insertLoop (runIns : ScrapedRow → Except String Unit)
    (db : List ScrapedRow) : List ScrapedRow → Except String (List ScrapedRow)
  | [] => .ok db
  | r :: rest =>
    match runIns r with
    | .ok _ => insertLoop runIns (db ++ [r]) rest
    | .error e => .error e

/-- `DatabaseConnection.transaction`: BEGIN, run the body, COMMIT on
success; on any failure inside the body, ROLLBACK (the table reverts to
its pre-transaction contents) and the error re-raises. -/
def transaction (db : List ScrapedRow)
    (fn : List ScrapedRow → Except String (List ScrapedRow)) :
    Except String (List ScrapedRow) × List ScrapedRow :=
  match fn db with
  | .ok db2 => (.ok db2, db2)
  | .error e => (.error e, db)

/-- The row built by `createMany` for one item of the batch. -/
def toScrapedRow (sid dt : String) (it : List (String × String) × String) :
    ScrapedRow :=
  ⟨sid, dt, it.1, it.2⟩

/-- `ScrapedDataModel.createMany`: one transactional bulk insert of the
whole batch; on success the item count is returned, on failure the error
is reported and the table is left unchanged (rollback). -/
def createMany (runIns : ScrapedRow → Except String Unit)
    (db : List ScrapedRow) (sid dt : String)
    (items : List (List (String × String) × String)) :
    Except String Nat × List ScrapedRow :=
  match transaction db
    (fun d => insertLoop runIns d (items.map (toScrapedRow sid dt))) with
  | (.ok db2, _) => (.ok (items.map (toScrapedRow sid dt)).length, db2)
  | (.error e, _) => (.error e, db)

/-- The per-page try/catch loop of `BaseScraper.scrapeMultiple`: each
page is extracted independently; a throwing page is logged and skipped;
a successful extraction contributes to the batch only if the document is
non-empty. -/
def collectResults (pages : List PageInput) :
    List (List (String × String) × String) :=
  pages.foldl
    (fun acc pg =>
      match pg.extracted with
      | .ok d => if d.length > 0 then acc ++ [(d, pg.url)] else acc
      | .error _ => acc)
    []

/-- The item contributed by one page: its document and URL when the
extraction succeeded with at least one field, nothing otherwise. -/
def nonemptySuccess (pg : PageInput) :
    Option (List (String × String) × String) :=
  match pg.extracted with
  | .ok d => if d.length > 0 then some (d, pg.url) else none
  | .error _ => none

/-- `BaseScraper.scrapeMultiple` followed by `storeBulkData`: the batch
of non-empty successful extractions, when non-empty, is persisted via
`createMany` under the bound session id (`'Session ID not set'` when the
scraper has no bound session); store failures propagate. -/
def scrapeMultiple (runIns : ScrapedRow → Except String Unit)
    (sessionId : Option String) (dt : String)
    (db : List ScrapedRow) (pages : List PageInput) :
    Except String Unit × List ScrapedRow :=
  let results := collectResults pages
  if results.length > 0 then
    match sessionId with
    | none => (.error "Session ID not set", db)
    | some sid =>
      match createMany runIns db sid dt results with
      | (.ok _, db2) => (.ok (), db2)
      | (.error e, db2) => (.error ("Failed to store bulk data: " ++ e), db2)
  else (.ok (), db)

/-- An insert that always succeeds (the normal case: no constraint
violation). -/
def okIns : ScrapedRow → Except String Unit := fun _ => .ok ()

/- ### Helper lemmas -/

theorem range_map_backoff (d m a n : Nat) :
    (List.range (n + 1)).map (fun i => d * m ^ (a + i)) =
      d * m ^ a :: (List.range n).map (fun i => d * m ^ (a + 1 + i)) := by
  rw [List.range_succ_eq_map, List.map_cons, List.map_map]
  refine congrArg₂ _ (by rw [Nat.add_zero]) ?_
  apply List.map_congr_left
  intro i _
  have h : a + Nat.succ i = a + 1 + i := by omega
  simp [Function.comp, h]

theorem retryLoop_allFail {α : Type} (op : Nat → Except JsError α)
    (e : Nat → JsError) (hop : ∀ i, op i = .error (e i)) (d m : Nat) :
    ∀ r a, retryLoop op d m a r =
      ⟨.error (e (a + r)), r + 1,
        (List.range r).map (fun i => d * m ^ (a + i))⟩ := by
  intro r
  induction r with
  | zero =>
    intro a
    simp [retryLoop, hop a]
  | succ n ih =>
    intro a
    have harith : a + 1 + n = a + (n + 1) := by omega
    simp [retryLoop, hop a, ih (a + 1), range_map_backoff, harith]

/-- Invariant preservation for arbitrary predicates over session rows:
any predicate that holds of freshly created rows and is preserved by the
status and metadata updates holds of every row reachable through
`SessionModel` operations. -/
theorem sessionOps_invariant (P : SessionRow → Prop)
    (hcreate : ∀ sid url md, P ⟨sid, url, "active", none, md⟩)
    (hupd : ∀ r st now, P r →
      P { r with status := SessionStatus.toDb st,
                 endedAt := terminalEndedAt st now })
    (hmd : ∀ r md, P r → P { r with metadata := some md }) :
    ∀ (ops : List SessionOp) (db : List SessionRow),
      (∀ r ∈ db, P r) → ∀ r ∈ ops.foldl applySessionOp db, P r := by
  intro ops
  induction ops with
  | nil => intro db hdb r hr; exact hdb r hr
  | cons op rest ih =>
    intro db hdb r hr
    refine ih (applySessionOp db op) ?_ r hr
    intro s hs
    cases op with
    | create sid url md =>
      rcases List.mem_append.mp hs with h | h
      · exact hdb s h
      · rcases List.mem_singleton.mp h with rfl
        exact hcreate sid url md
    | updateStatus sid st now =>
      rcases List.mem_map.mp hs with ⟨r0, hr0, hmap⟩
      by_cases hid : r0.sessionId = sid
      · rw [if_pos hid] at hmap
        rw [← hmap]
        exact hupd r0 st now (hdb r0 hr0)
      · rw [if_neg hid] at hmap
        rw [← hmap]
        exact hdb r0 hr0
    | updateMetadata sid md =>
      rcases List.mem_map.mp hs with ⟨r0, hr0, hmap⟩
      by_cases hid : r0.sessionId = sid
      · rw [if_pos hid] at hmap
        rw [← hmap]
        exact hmd r0 md (hdb r0 hr0)
      · rw [if_neg hid] at hmap
        rw [← hmap]
        exact hdb r0 hr0
    | deleteSession sid =>
      exact hdb s (List.mem_of_mem_filter hs)

/-- Closed form of `retry` on an enabled policy against an operation that
fails on every attempt: the raw error of the final attempt is re-raised,
the operation runs `effMaxRetries + 1` times, and the delays follow the
exponential back-off schedule. -/
theorem retry_allFail {α : Type} (op : Nat → Except JsError α)
    (e : Nat → JsError) (hop : ∀ i, op i = .error (e i))
    (c : RetryConfig) (hen : c.enabled = true) :
    retry op c = ⟨.error (e (effMaxRetries c)), effMaxRetries c + 1,
      (List.range (effMaxRetries c)).map
        (fun i => effDelayMs c * effBackoffMultiplier c ^ i)⟩ := by
  unfold retry
  rw [hen]
  have h := retryLoop_allFail op e hop (effDelayMs c) (effBackoffMultiplier c)
    (effMaxRetries c) 0
  simpa using h

/- ### Claim theorems: retry executor -/

/-- Claim C2 (amended): for every enabled retry policy and every
operation that fails on all attempts, `retry` terminates by re-raising
the last observed failure itself — the raw error of the final attempt,
not a `RetryExhausted` wrapper (no such wrapper type exists in the
code). -/
theorem retry_raises_last_error {α : Type} (op : Nat → Except JsError α)
    (e : Nat → JsError) (c : RetryConfig) (hen : c.enabled = true)
    (hop : ∀ i, op i = .error (e i)) :
    (retry op c).result = .error (e (effMaxRetries c)) := by
  rw [retry_allFail op e hop c hen]

/-- Witness for `retry_raises_last_error` at the default policy against
`alwaysFail`: the raised error is the raw error of attempt 3. -/
theorem retry_raises_last_error_witness :
    (retry alwaysFail ⟨true, 3, 1000, 2⟩).result =
      .error (.error "3") := by
  have h := retry_raises_last_error alwaysFail
    (fun i => .error (toString i)) ⟨true, 3, 1000, 2⟩ rfl (fun i => rfl)
  exact h

/-- Counterexample to claim C2 as stated: against an always-failing
operation the default enabled policy raises the raw last error itself
(`Error "3"` from the final attempt), which is not a `RetryExhausted`
wrapper. -/
theorem retry_exhausted_counterexample :
    (retry alwaysFail ⟨true, 3, 1000, 2⟩).result = .error (.error "3") ∧
    isRetryExhausted (.error "3") = false := by
  constructor
  · decide
  · rfl

/-- Claim C3 (amended): for every enabled policy whose `maxRetries`,
`delayMs` and `backoffMultiplier` are all non-zero (so that the falsy-or
defaulting is inert) and every operation failing on every attempt,
`retry` invokes the operation exactly `maxRetries + 1` times and sleeps
`delayMs * backoffMultiplier ^ attempt` between consecutive invocations,
with `attempt` counted from zero. -/
theorem retry_attempts_and_delays {α : Type} (op : Nat → Except JsError α)
    (e : Nat → JsError) (c : RetryConfig) (hen : c.enabled = true)
    (hmr : c.maxRetries ≠ 0) (hd : c.delayMs ≠ 0)
    (hb : c.backoffMultiplier ≠ 0) (hop : ∀ i, op i = .error (e i)) :
    (retry op c).invocations = c.maxRetries + 1 ∧
    (retry op c).delays = (List.range c.maxRetries).map
      (fun i => c.delayMs * c.backoffMultiplier ^ i) := by
  rw [retry_allFail op e hop c hen]
  unfold effMaxRetries effDelayMs effBackoffMultiplier
  rw [if_neg hmr, if_neg hd, if_neg hb]
  exact ⟨rfl, rfl⟩

/-- Witness for `retry_attempts_and_delays`: the policy
`{maxRetries := 3, delayMs := 100, backoffMultiplier := 2}` yields
exactly 4 invocations with delays 100ms, 200ms, 400ms. -/
theorem retry_attempts_and_delays_witness :
    (retry alwaysFail ⟨true, 3, 100, 2⟩).invocations = 4 ∧
    (retry alwaysFail ⟨true, 3, 100, 2⟩).delays = [100, 200, 400] := by
  have h := retry_attempts_and_delays alwaysFail
    (fun i => .error (toString i)) ⟨true, 3, 100, 2⟩ rfl
    (by decide) (by decide) (by decide) (fun i => rfl)
  exact ⟨h.1, h.2.trans (by decide)⟩

/-- Counterexample to claim C3 as stated for all policies: with
`maxRetries = 0` the falsy-or defaulting substitutes 3, so an
always-failing operation is invoked 4 times, not `maxRetries + 1 = 1`. -/
theorem retry_attempts_counterexample :
    (retry alwaysFail ⟨true, 0, 100, 2⟩).invocations = 4 ∧
    (0 + 1 : Nat) ≠ 4 := by
  constructor
  · decide
  · decide

/-- Claim C9: the retry executor substitutes defaults for zero-valued
policy fields by falsy-or defaulting — `maxRetries = 0` is treated as 3,
`delayMs = 0` as 1000, `backoffMultiplier = 0` as 2 — and in particular
an enabled policy with `maxRetries = 0` invokes an always-failing
operation 4 times, not once. -/
theorem retry_falsy_defaults :
    (∀ c : RetryConfig, c.maxRetries = 0 → effMaxRetries c = 3) ∧
    (∀ c : RetryConfig, c.delayMs = 0 → effDelayMs c = 1000) ∧
    (∀ c : RetryConfig, c.backoffMultiplier = 0 →
      effBackoffMultiplier c = 2) ∧
    (∀ (α : Type) (op : Nat → Except JsError α) (e : Nat → JsError),
      (∀ i, op i = .error (e i)) → ∀ d m : Nat,
        (retry op ⟨true, 0, d, m⟩).invocations = 4) := by
  refine ⟨?_, ?_, ?_, ?_⟩
  · intro c h; simp [effMaxRetries, h]
  · intro c h; simp [effDelayMs, h]
  · intro c h; simp [effBackoffMultiplier, h]
  · intro α op e hop d m
    rw [retry_allFail op e hop ⟨true, 0, d, m⟩ rfl]
    simp [effMaxRetries]

/-- Witness for `retry_falsy_defaults` at a concrete always-failing
operation with `maxRetries = 0`. -/
theorem retry_falsy_defaults_witness :
    (retry alwaysFail ⟨true, 0, 1000, 2⟩).invocations = 4 :=
  retry_falsy_defaults.2.2.2 Unit alwaysFail
    (fun i => .error (toString i)) (fun i => rfl) 1000 2

/- ### Claim theorems: session state -/

/-- `updateStatus` leaves every matching row satisfying the
`endedAt`-iff-terminal invariant, whatever row it started from. -/
theorem endedAtIffTerminal_update (r : SessionRow) (st : SessionStatus)
    (now : String) :
    endedAtIffTerminal { r with status := SessionStatus.toDb st,
                                endedAt := terminalEndedAt st now } := by
  show (terminalEndedAt st now).isSome = true ↔
    (SessionStatus.toDb st = "completed" ∨ SessionStatus.toDb st = "failed")
  cases st with
  | active =>
    rw [show terminalEndedAt .active now = none from rfl]
    decide
  | completed =>
    rw [show terminalEndedAt .completed now = some now from rfl]
    simp only [Option.isSome_some]
    decide
  | failed =>
    rw [show terminalEndedAt .failed now = some now from rfl]
    simp only [Option.isSome_some]
    decide

/-- A freshly created row satisfies the invariant: status `'active'`,
`ended_at` NULL. -/
theorem endedAtIffTerminal_create (sid url : String) (md : Option String) :
    endedAtIffTerminal ⟨sid, url, "active", none, md⟩ := by
  show (none : Option String).isSome = true ↔
    ("active" = "completed" ∨ "active" = "failed")
  decide

/-- Claim C1: immediately after `create` the row has status `'active'`
and `ended_at` NULL; after `updateStatus(sessionId, s)` the stored
`endedAt` of each matching row is non-null iff `s` is `completed` or
`failed`; and in every session row reachable by a sequence of
`SessionModel` operations, `endedAt` is set iff the status is
`completed` or `failed`. -/
theorem session_endedAt_invariant :
    (∀ (db : List SessionRow) (sid url : String) (md : Option String),
      applySessionOp db (.create sid url md) =
        db ++ [⟨sid, url, "active", none, md⟩]) ∧
    (∀ (db : List SessionRow) (sid : String) (st : SessionStatus)
        (now : String),
      ∀ r ∈ applySessionOp db (.updateStatus sid st now), r.sessionId = sid →
        (r.endedAt.isSome = true ↔ (st = .completed ∨ st = .failed))) ∧
    (∀ ops : List SessionOp, ∀ r ∈ runSessionOps ops,
      endedAtIffTerminal r) := by
  refine ⟨fun db sid url md => rfl, ?_, ?_⟩
  · intro db sid st now r hr hid
    rcases List.mem_map.mp hr with ⟨r0, _hr0, hmap⟩
    by_cases h : r0.sessionId = sid
    · rw [if_pos h] at hmap
      rw [← hmap]
      show (terminalEndedAt st now).isSome = true ↔
        (st = .completed ∨ st = .failed)
      cases st with
      | active =>
        rw [show terminalEndedAt .active now = none from rfl]
        decide
      | completed =>
        rw [show terminalEndedAt .completed now = some now from rfl]
        simp only [Option.isSome_some]
        decide
      | failed =>
        rw [show terminalEndedAt .failed now = some now from rfl]
        simp only [Option.isSome_some]
        decide
    · rw [if_neg h] at hmap
      rw [← hmap] at hid
      exact absurd hid h
  · intro ops r hr
    refine sessionOps_invariant endedAtIffTerminal ?_ ?_ ?_ ops [] ?_ r hr
    · exact endedAtIffTerminal_create
    · intro r0 st now _h
      exact endedAtIffTerminal_update r0 st now
    · intro r0 md h
      exact h
    · intro s hs
      exact absurd hs (List.not_mem_nil s)

/-- Witness for `session_endedAt_invariant`: the row reached by
`create` then `updateStatus(completed)` satisfies the invariant. -/
theorem session_endedAt_invariant_witness :
    endedAtIffTerminal ⟨"s", "u", "completed", some "t", none⟩ :=
  session_endedAt_invariant.2.2
    [.create "s" "u" none, .updateStatus "s" .completed "t"]
    ⟨"s", "u", "completed", some "t", none⟩ (by decide)

/-- Counterexample to claim C8 as stated: a session moved to the
`completed` status is subsequently moved back to `active` (clearing
`ended_at`) by a further `updateStatus` call — the stored terminal
status does not block later transitions. -/
theorem terminal_status_counterexample :
    runSessionOps [.create "s" "u" none, .updateStatus "s" .completed "t1",
      .updateStatus "s" .active "t2"] =
      [⟨"s", "u", "active", none, none⟩] := by
  decide

/-- Claim C8 (amended): `updateStatus` applies the requested status
unconditionally — every matching row receives the new status and the
corresponding `ended_at`, with no guard on the previously stored status,
so `completed` and `failed` are not enforced as terminal. -/
theorem updateStatus_unguarded (db : List SessionRow) (sid : String)
    (st : SessionStatus) (now : String) :
    ∀ r ∈ applySessionOp db (.updateStatus sid st now), r.sessionId = sid →
      r.status = st.toDb ∧ r.endedAt = terminalEndedAt st now := by
  intro r hr hid
  rcases List.mem_map.mp hr with ⟨r0, _hr0, hmap⟩
  by_cases h : r0.sessionId = sid
  · rw [if_pos h] at hmap
    rw [← hmap]
    exact ⟨rfl, rfl⟩
  · rw [if_neg h] at hmap
    rw [← hmap] at hid
    exact absurd hid h

/-- Witness for `updateStatus_unguarded`: a row stored as `completed` is
overwritten to `active` by a later `updateStatus`. -/
theorem updateStatus_unguarded_witness :
    (⟨"s", "u", "active", none, none⟩ : SessionRow).status =
      SessionStatus.toDb .active ∧
    (⟨"s", "u", "active", none, none⟩ : SessionRow).endedAt =
      terminalEndedAt .active "t2" :=
  updateStatus_unguarded [⟨"s", "u", "completed", some "t1", none⟩]
    "s" .active "t2" ⟨"s", "u", "active", none, none⟩ (by decide) rfl

/-- Claim C10: the `SessionStatus` type admits only `active`,
`completed` and `failed`; the schema CHECK constraint additionally
allows `'paused'`; and every session row reachable through
`SessionModel` operations carries one of the three typed statuses. -/
theorem typed_status_never_paused :
    (∀ st : SessionStatus,
      st.toDb ∈ sessionsStatusCheck ∧ st.toDb ≠ "paused") ∧
    "paused" ∈ sessionsStatusCheck ∧
    (∀ ops : List SessionOp, ∀ r ∈ runSessionOps ops,
      r.status = "active" ∨ r.status = "completed" ∨
        r.status = "failed") := by
  refine ⟨?_, by decide, ?_⟩
  · intro st
    cases st <;> exact ⟨by decide, by decide⟩
  · intro ops r hr
    refine sessionOps_invariant
      (fun s => s.status = "active" ∨ s.status = "completed" ∨
        s.status = "failed") ?_ ?_ ?_ ops [] ?_ r hr
    · intro sid url md
      exact Or.inl rfl
    · intro r0 st now _h
      cases st with
      | active => exact Or.inl rfl
      | completed => exact Or.inr (Or.inl rfl)
      | failed => exact Or.inr (Or.inr rfl)
    · intro r0 md h
      exact h
    · intro s hs
      exact absurd hs (List.not_mem_nil s)

/-- Witness for `typed_status_never_paused` on a freshly created
session row. -/
theorem typed_status_never_paused_witness :
    (⟨"s", "u", "active", none, none⟩ : SessionRow).status = "active" ∨
    (⟨"s", "u", "active", none, none⟩ : SessionRow).status = "completed" ∨
    (⟨"s", "u", "active", none, none⟩ : SessionRow).status = "failed" :=
  typed_status_never_paused.2.2 [.create "s" "u" none]
    ⟨"s", "u", "active", none, none⟩ (by decide)

/- ### Claim theorems: browser manager -/

/-- Counterexample to claim C5 as stated: from a fresh manager,
`launch` succeeds, `close` succeeds, and a second `launch` on the same
manager instance succeeds again — `close` resets the browser handle to
null, so the closed state is not terminal. -/
theorem relaunch_after_close_counterexample :
    (launch BMState.initial).1 = .ok () ∧
    (close (fun _ => false) (fun _ => false) false
      (launch BMState.initial).2).1 = .ok () ∧
    (launch (close (fun _ => false) (fun _ => false) false
      (launch BMState.initial).2).2).1 = .ok () := by
  decide

/-- Claim C5 (amended): after a `close()` whose browser close succeeds,
the manager is back in the unlaunched state (browser handle null), so a
subsequent `launch()` on the same instance succeeds; `launch` fails
with `'Browser already launched'` exactly while a handle exists.  The
handle state machine is therefore
`unlaunched → launched → unlaunched`, not terminal after close. -/
theorem close_then_launch (pf : Nat → Bool) (cf : String → Bool)
    (st : BMState) :
    (close pf cf false st).2.browser = false ∧
    (∀ s : BMState, s.browser = false →
      launch s = (.ok (), { s with browser := true })) ∧
    (∀ s : BMState, s.browser = true →
      launch s = (.error "Browser already launched", s)) := by
  refine ⟨?_, ?_, ?_⟩
  · unfold close
    by_cases h : st.browser <;> simp [h]
  · intro s hs
    simp [launch, hs]
  · intro s hs
    simp [launch, hs]

/-- Witness for `close_then_launch`: a fresh manager (browser handle
null) launches successfully. -/
theorem close_then_launch_witness :
    launch BMState.initial =
      (.ok (), { BMState.initial with browser := true }) :=
  (close_then_launch (fun _ => false) (fun _ => false)
    BMState.initial).2.1 BMState.initial rfl

/-- Counterexample to claim C6 as stated: on a context with two pages
whose first page close raises, `closeContext` aborts — the error
propagates, the second page is not closed or removed, and the context
entry survives, instead of the remaining teardown steps executing. -/
theorem closeContext_abort_counterexample :
    closeContext (fun i => i == 0) (fun _ => false)
      ⟨true, ["c"], [("c:p1", ⟨0, 5, 5⟩), ("c:p2", ⟨1, 5, 5⟩)], 2⟩ "c" =
      (.error "page close failed",
       ⟨true, ["c"], [("c:p1", ⟨0, 5, 5⟩), ("c:p2", ⟨1, 5, 5⟩)], 2⟩) := by
  decide

/-- Claim C6 (amended): only `close()` is best-effort — whatever
individual page or context closes fail, it clears both maps and
proceeds; `closePage` propagates a failing underlying close and leaves
the page entry registered; and whenever `closeContext` raises, the
context entry survives (the remaining teardown is aborted). -/
theorem teardown_error_handling (pf : Nat → Bool) (cf : String → Bool)
    (bf : Bool) (st : BMState) :
    ((close pf cf bf st).2.pages = [] ∧
      (close pf cf bf st).2.contexts = []) ∧
    (∀ cid pid p, lookupPage st.pages (fullPageId cid pid) = some p →
      pf p.id = true →
      closePage pf st cid pid = (.error "page close failed", st)) ∧
    (∀ cid e, (closeContext pf cf st cid).1 = .error e →
      (closeContext pf cf st cid).2.contexts = st.contexts) := by
  refine ⟨?_, ?_, ?_⟩
  · unfold close
    by_cases h : st.browser <;> by_cases hb : bf <;> simp [h, hb]
  · intro cid pid p hp hpf
    unfold closePage
    simp only [hp, hpf, if_true]
  · intro cid e
    unfold closeContext
    by_cases hc : st.contexts.contains cid = true
    · rw [if_pos hc]
      rcases hp : closePagesLoop pf
        ((st.pages.filter (fun q => strStartsWith q.1 (cid ++ ":"))).map
          (fun q => q.1)) st.pages with ⟨res, ps⟩
      rw [hp]
      cases res with
      | error e2 =>
        intro _he
        rfl
      | ok u =>
        simp only []
        by_cases hcf : cf cid = true
        · rw [if_pos hcf]
          intro _he
          rfl
        · rw [if_neg hcf]
          intro he
          cases he
    · rw [if_neg hc]
      intro he
      cases he

/-- Witness for `teardown_error_handling`: a `closePage` whose
underlying close raises propagates the error and leaves the page entry
in the map. -/
theorem teardown_error_handling_witness :
    closePage (fun i => i == 0) ⟨true, ["c"], [("c:p", ⟨0, 5, 5⟩)], 1⟩
      "c" "p" =
      (.error "page close failed",
       ⟨true, ["c"], [("c:p", ⟨0, 5, 5⟩)], 1⟩) :=
  (teardown_error_handling (fun i => i == 0) (fun _ => false) false
    ⟨true, ["c"], [("c:p", ⟨0, 5, 5⟩)], 1⟩).2.1 "c" "p" ⟨0, 5, 5⟩ rfl rfl

/-- Counterexample to claim C7 as stated: the pages map is keyed by the
string `contextId + ":" + pageId`, and is consulted before the context
registry.  The state below is reached from a fresh manager by `launch`,
`createContext "a:b"`, `getPage "a:b" "c"`; then `getPage "a" "b:c"`,
although the context id `"a"` is unregistered, does not fail with
ContextNotFound — it returns the page created under context `"a:b"`. -/
theorem getPage_collision_counterexample :
    (launch BMState.initial).2 = ⟨true, [], [], 0⟩ ∧
    (createContext ⟨true, [], [], 0⟩ "a:b").2 = ⟨true, ["a:b"], [], 0⟩ ∧
    (getPage 7 ⟨true, ["a:b"], [], 0⟩ "a:b" "c").2 =
      ⟨true, ["a:b"], [("a:b:c", ⟨0, 7, 7⟩)], 1⟩ ∧
    (⟨true, ["a:b"], [("a:b:c", ⟨0, 7, 7⟩)], 1⟩ : BMState).contexts.contains
      "a" = false ∧
    getPage 7 ⟨true, ["a:b"], [("a:b:c", ⟨0, 7, 7⟩)], 1⟩ "a" "b:c" =
      (.ok ⟨0, 7, 7⟩, ⟨true, ["a:b"], [("a:b:c", ⟨0, 7, 7⟩)], 1⟩) := by
  decide

/-- Claim C7 (amended): `getPage` is idempotent — if a page already
exists under the joined key `contextId:pageId` it is returned with the
manager unchanged (page count unchanged); otherwise, for a registered
context, exactly one fresh page is created under that key with the
configured default navigation and action timeouts applied; and for an
unregistered context id it fails with `'Context ... not found'`
*provided* no existing page entry matches the joined key (ids containing
`':'` can collide, in which case the page check wins). -/
theorem getPage_spec (t : Nat) (st : BMState) (cid pid : String) :
    (∀ p, lookupPage st.pages (fullPageId cid pid) = some p →
      getPage t st cid pid = (.ok p, st)) ∧
    (lookupPage st.pages (fullPageId cid pid) = none →
      st.contexts.contains cid = true →
      getPage t st cid pid =
        (.ok ⟨st.nextPageId, t, t⟩,
         { st with
             pages := st.pages ++ [(fullPageId cid pid, ⟨st.nextPageId, t, t⟩)],
             nextPageId := st.nextPageId + 1 })) ∧
    (lookupPage st.pages (fullPageId cid pid) = none →
      st.contexts.contains cid = false →
      getPage t st cid pid = (.error ("Context " ++ cid ++ " not found"), st)) := by
  refine ⟨?_, ?_, ?_⟩
  · intro p hp
    unfold getPage
    simp only [hp]
  · intro hp hc
    unfold getPage
    simp only [hp, hc, if_true]
  · intro hp hc
    unfold getPage
    simp [hp, hc]
    simpa using hc

/-- Witness for `getPage_spec`: on a manager with one registered context
and no pages, `getPage` creates the page `⟨0, 7, 7⟩` under the joined
key, applying the configured timeout 7 twice. -/
theorem getPage_spec_witness :
    getPage 7 ⟨true, ["g"], [], 0⟩ "g" "default" =
      (.ok ⟨0, 7, 7⟩, ⟨true, ["g"], [("g:default", ⟨0, 7, 7⟩)], 1⟩) := by
  have h := (getPage_spec 7 ⟨true, ["g"], [], 0⟩ "g" "default").2.1 rfl rfl
  exact h.trans (by decide)

/- ### Claim theorems: extraction pipeline -/

/-- If the row-by-row insert loop of the transaction body returns
successfully, the table holds exactly the prior rows followed by the
whole batch. -/
theorem insertLoop_ok_shape (ri : ScrapedRow → Except String Unit) :
    ∀ (rows : List ScrapedRow) (db d : List ScrapedRow),
      insertLoop ri db rows = .ok d → d = db ++ rows := by
  intro rows
  induction rows with
  | nil =>
    intro db d h
    cases h
    simp
  | cons r rest ih =>
    intro db d h
    unfold insertLoop at h
    cases hri : ri r with
    | ok u =>
      rw [hri] at h
      have := ih (db ++ [r]) d h
      simpa using this
    | error e =>
      rw [hri] at h
      cases h

/-- When no individual insert fails, the insert loop succeeds with the
whole batch appended. -/
theorem insertLoop_allOk (ri : ScrapedRow → Except String Unit)
    (hok : ∀ r, ri r = .ok ()) :
    ∀ (rows : List ScrapedRow) (db : List ScrapedRow),
      insertLoop ri db rows = .ok (db ++ rows) := by
  intro rows
  induction rows with
  | nil =>
    intro db
    simp [insertLoop]
  | cons r rest ih =>
    intro db
    unfold insertLoop
    rw [hok r]
    simpa using ih (db ++ [r])

/-- The per-page loop of `scrapeMultiple` visits every supplied page and
collects exactly the non-empty successful extractions, in order —
a throwing page contributes nothing and does not stop the loop. -/
theorem collectResults_eq_filterMap (pages : List PageInput) :
    collectResults pages = pages.filterMap nonemptySuccess := by
  suffices h : ∀ (ps : List PageInput)
      (acc : List (List (String × String) × String)),
      ps.foldl
        (fun acc pg =>
          match pg.extracted with
          | .ok d => if d.length > 0 then acc ++ [(d, pg.url)] else acc
          | .error _ => acc) acc = acc ++ ps.filterMap nonemptySuccess by
    simpa [collectResults] using h pages []
  intro ps
  induction ps with
  | nil =>
    intro acc
    simp
  | cons pg rest ih =>
    intro acc
    simp only [List.foldl_cons, List.filterMap_cons]
    cases hpg : pg.extracted with
    | ok d =>
      by_cases hd : d.length > 0
      · simp [nonemptySuccess, hpg, hd, ih]
      · simp [nonemptySuccess, hpg, hd, ih]
    | error e =>
      simp [nonemptySuccess, hpg, ih]

/-- `createMany` is atomic: for every insert behaviour, either the whole
batch commits (appending every row, reporting the batch size) or the
transaction rolls back and the table is unchanged. -/
theorem createMany_atomic (ri : ScrapedRow → Except String Unit)
    (db : List ScrapedRow) (sid dt : String)
    (items : List (List (String × String) × String)) :
    createMany ri db sid dt items =
      (.ok items.length, db ++ items.map (toScrapedRow sid dt)) ∨
    ∃ e, createMany ri db sid dt items = (.error e, db) := by
  unfold createMany transaction
  simp only []
  cases h : insertLoop ri db (items.map (toScrapedRow sid dt)) with
  | ok d =>
    left
    have hd := insertLoop_ok_shape ri (items.map (toScrapedRow sid dt)) db d h
    subst hd
    simp
  | error e =>
    right
    exact ⟨e, rfl⟩

/-- Claim C4: with a bound session and no constraint failures,
`scrapeMultiple` does not abort on a throwing page — every page is
attempted and exactly the non-empty successful extractions are appended
to the table, via a single bulk insert; and that bulk insert is
transactional — for arbitrary insert failures it commits all rows or
none. -/
theorem scrapeMultiple_partial_failure
    (runIns : ScrapedRow → Except String Unit)
    (hri : ∀ r, runIns r = .ok ()) (sid dt : String)
    (db : List ScrapedRow) (pages : List PageInput) :
    scrapeMultiple runIns (some sid) dt db pages =
      (.ok (), db ++ (pages.filterMap nonemptySuccess).map
        (toScrapedRow sid dt)) ∧
    (∀ (ri : ScrapedRow → Except String Unit) (db2 : List ScrapedRow)
        (items : List (List (String × String) × String)),
      createMany ri db2 sid dt items =
        (.ok items.length, db2 ++ items.map (toScrapedRow sid dt)) ∨
      ∃ e, createMany ri db2 sid dt items = (.error e, db2)) := by
  constructor
  · unfold scrapeMultiple
    rw [collectResults_eq_filterMap]
    simp only []
    by_cases hlen : (pages.filterMap nonemptySuccess).length > 0
    · rw [if_pos hlen]
      have hcm : createMany runIns db sid dt (pages.filterMap nonemptySuccess) =
          (.ok (pages.filterMap nonemptySuccess).length,
           db ++ (pages.filterMap nonemptySuccess).map (toScrapedRow sid dt)) := by
        unfold createMany transaction
        simp only []
        rw [insertLoop_allOk runIns hri]
        simp
      rw [hcm]
    · rw [if_neg hlen]
      have hnil : pages.filterMap nonemptySuccess = [] :=
        List.eq_nil_of_length_eq_zero (by omega)
      rw [hnil]
      simp
  · intro ri db2 items
    exact createMany_atomic ri db2 sid dt items

/-- Witness for `scrapeMultiple_partial_failure` at the specification's
example batch: page A extracts one field, page B throws, page C extracts
one field — exactly the two records for A and C are persisted, and the
failure on B does not abort the batch. -/
theorem scrapeMultiple_partial_failure_witness :
    scrapeMultiple okIns (some "s") "game" []
      [⟨.ok [("k", "a")], "uA"⟩, ⟨.error "boom", "uB"⟩,
       ⟨.ok [("k", "c")], "uC"⟩] =
      (.ok (), [⟨"s", "game", [("k", "a")], "uA"⟩,
                ⟨"s", "game", [("k", "c")], "uC"⟩]) := by
  have h := (scrapeMultiple_partial_failure okIns (fun r => rfl) "s" "game" []
    [⟨.ok [("k", "a")], "uA"⟩, ⟨.error "boom", "uB"⟩,
     ⟨.ok [("k", "c")], "uC"⟩]).1
  exact h.trans (by decide)

end PowerBot
